import Mathlib

/-!
Verification of the lince-scheduler message-processing core against its
specification. The definitions below are a shallow embedding of the
TaskRetryExecutor / Task / TaskScheduler / CronTask classes of
`src/index.js` (the TaskRetryExecutor half of the file). JavaScript
machine integers are modelled as `Nat` (all quantities involved are
non-negative counters, millisecond delays, or timestamps), thrown
exceptions as `Except`, and the event-loop timers as an explicit trace of
scheduling events.
-/

namespace LinceScheduler

/-- JavaScript values appearing in the embedded fragment: strings, generic
objects (the `{}` messages produced by the default MessageFetcher and the
payloads produced by parsers/handlers), and the executor instance itself,
which the code passes as the first argument of `parser.parse` at
`this.parser.parse(this, originalMessage)`. -/
inductive Val where
  | str (s : String)
  | obj
  | execRef
deriving DecidableEq, Repr

/-- Errors raised in the embedded fragment, classified the way the code
classifies them with `instanceof`: `FatalError`, `ParsingError`, or any
other `Error` (transient). Each carries its `message` string. -/
inductive JsError where
  | fatal (msg : String)
  | parsing (msg : String)
  | generic (msg : String)
deriving DecidableEq, Repr

/-- The `message` property of an error object. -/
def JsError.message : JsError → String
  | .fatal m => m
  | .parsing m => m
  | .generic m => m

/-- The `error instanceof FatalError` test of `handleTask`. -/
def JsError.isFatal : JsError → Bool
  | .fatal _ => true
  | _ => false

/-- The `error instanceof ParsingError` test. -/
def JsError.isParsing : JsError → Bool
  | .parsing _ => true
  | _ => false

/-- Task lifecycle status: `'pending' | 'success' | 'error'` strings in the
code. -/
inductive Status where
  | pending
  | success
  | error
deriving DecidableEq, Repr

/-- The mutable Task record of `src/index.js` (class `Task`), restricted to
the fields the specification's claims are about. `message`, `lastError`
and `result` start as `null` (here `none`). -/
structure Task where
  originalMessage : Val
  message : Option Val
  retries : Nat
  maxRetries : Nat
  lastError : Option JsError
  result : Option Val
  status : Status
deriving DecidableEq, Repr

/-- JavaScript `x || d` for a non-negative integer `x`: `0` is falsy and is
replaced by the default. Used by the Task constructor
(`this.maxRetries = options.maxRetries || 10`). -/
def orDefault (v d : Nat) : Nat := if v = 0 then d else v

/-- The Task constructor, called from `TaskRetryExecutor.execute` with
`{ maxRetries: this.maxRetries, originalMessage }` (no `retries` option,
so `options.retries || 0` gives `0`). -/
def newTask (maxRetries : Nat) (originalMessage : Val) : Task :=
  { originalMessage := originalMessage
    message := none
    retries := 0
    maxRetries := orDefault maxRetries 10
    lastError := none
    result := none
    status := .pending }

/-- `Task.increaseRetries`: `this.retries++`. -/
def Task.increaseRetries (t : Task) : Task :=
  { t with retries := t.retries + 1 }

/-- `Task.setMessage`: stores the parsed payload. -/
def Task.setMessage (t : Task) (m : Val) : Task :=
  { t with message := some m }

/-- `Task.setLastError`: `this.lastError = error`. -/
def Task.setLastError (t : Task) (e : JsError) : Task :=
  { t with lastError := some e }

/-- `Task.setCompletedAsError`: sets `status = 'error'` and calls
`setLastError(error)`. -/
def Task.setCompletedAsError (t : Task) (e : JsError) : Task :=
  { t with status := .error, lastError := some e }

/-- `Task.setCompletedAsSuccess(result)`: the source sets `completedAt` and
`status = 'success'` but never assigns its `result` parameter to
`this.result`; the embedding mirrors that exactly, leaving `result`
unchanged. -/
def Task.setCompletedAsSuccess (t : Task) (_result : Val) : Task :=
  { t with status := .success }

/-- Executor configuration: `intervalMs`, `maxIntervalMs`, `maxRetries`
from the TaskRetryExecutor constructor options. -/
structure Config where
  intervalMs : Nat
  maxIntervalMs : Nat
  maxRetries : Nat
deriving DecidableEq, Repr

/-- The TaskRetryExecutor constructor defaults:
`intervalMs: 1000, maxIntervalMs: 1000 * 60 * 60, maxRetries: 3`. -/
def defaultConfig : Config :=
  { intervalMs := 1000, maxIntervalMs := 3600000, maxRetries := 3 }

/-- The executor statistics record `this.stats`. -/
structure Stats where
  totalPending : Nat
  totalExecuted : Nat
  totalErrors : Nat
deriving DecidableEq, Repr

/-- `TaskRetryExecutor.calculateInterval`:
`Math.min(this.intervalMs * Math.pow(2, task.retries), this.maxIntervalMs)`. -/
def calculateInterval (cfg : Config) (t : Task) : Nat :=
  min (cfg.intervalMs * 2 ^ t.retries) cfg.maxIntervalMs

/-- Observable scheduling events of one `execute` call, in order:
`sched d` records a `setTimeout(..., d)` arming a timer for the next
handler attempt; `attempt r` records an invocation of
`this.handler.handle(task)` where `task.retries` equals `r` at the time of
the call. -/
inductive Ev where
  | sched (delayMs : Nat)
  | attempt (retries : Nat)
deriving DecidableEq, Repr

/-- Result of running the `handleTask` retry loop to completion: the final
task, the updated executor stats, the promise outcome (`resolve(task)` or
`reject(error)`), the trace of events, and the number of handler
invocations. -/
structure LoopResult where
  task : Task
  stats : Stats
  outcome : Except JsError Task
  events : List Ev
  handlerCalls : Nat
deriving Repr

/-- A handler behavior: `handler.handle(task)` either returns a value or
throws an error. Arbitrary stateful handlers are covered because the task
passed in differs (in `retries`) on every attempt. -/
def HandlerFn : Type := Task → Except JsError Val

/-- A parser behavior. The call site is
`this.parser.parse(this, originalMessage)`: two positional arguments, the
executor instance first and the raw message second. -/
def ParserFn : Type := Val → Val → Except JsError Val

/-- `TaskRetryExecutor.handleTask` together with the `retry`/`setTimeout`
re-scheduling it performs on a transient failure. One call models one
timer callback: `task.increaseRetries()`, then `this.handler.handle(task)`
inside `try`; on success `setCompletedAsSuccess`, `totalExecuted++`,
`resolve(task)`; on a caught error, `setCompletedAsError` when the error
is a `FatalError` or `retries >= maxRetries`, then if `task.status ==
'error'` bump `totalExecuted`/`totalErrors` and `reject(error)`, else
`setLastError(error)` and `this.retry(task, this.calculateInterval(task),
...)`, i.e. arm a new timer and run again.

The code performs two sequential tests: first it conditionally calls
`setCompletedAsError`, then it tests `task.status == 'error'`. The second
test succeeds exactly when the first condition held (since
`setCompletedAsError` sets the status to `'error'`) or when the status was
already `'error'` on entry; the embedding writes that as the equivalent
nested case split. -/
def handleTask (cfg : Config) (handler : HandlerFn) (stats : Stats)
    (t : Task) : LoopResult :=
  let t1 := t.increaseRetries
  match handler t1 with
  | .ok result =>
    let t2 := t1.setCompletedAsSuccess result
    { task := t2
      stats := { stats with totalExecuted := stats.totalExecuted + 1 }
      outcome := .ok t2
      events := [.attempt t1.retries]
      handlerCalls := 1 }
  | .error e =>
    if e.isFatal = true ∨ t1.maxRetries ≤ t1.retries then
      { task := t1.setCompletedAsError e
        stats := { stats with
          totalExecuted := stats.totalExecuted + 1
          totalErrors := stats.totalErrors + 1 }
        outcome := .error e
        events := [.attempt t1.retries]
        handlerCalls := 1 }
    else if t1.status = .error then
      { task := t1
        stats := { stats with
          totalExecuted := stats.totalExecuted + 1
          totalErrors := stats.totalErrors + 1 }
        outcome := .error e
        events := [.attempt t1.retries]
        handlerCalls := 1 }
    else
      let t3 := t1.setLastError e
      let r := handleTask cfg handler stats t3
      { r with
        events := .attempt t1.retries :: .sched (calculateInterval cfg t3) :: r.events
        handlerCalls := r.handlerCalls + 1 }
termination_by t.maxRetries - t.retries
decreasing_by
  unfold_let t3 t1 at *
  simp only [Task.setLastError, Task.increaseRetries] at *
  omega

/-- Result of one `TaskRetryExecutor.execute` call. `parserArgs` records
the two positional arguments the parser was invoked with. -/
structure ExecResult where
  task : Task
  stats : Stats
  events : List Ev
  handlerCalls : Nat
  parserArgs : Option (Val × Val)
deriving Repr

/-- `TaskRetryExecutor.execute(originalMessage)`, with the JavaScript
exception channel made explicit: a `.error` result would be an exception
escaping `execute`. The body constructs the Task, calls
`this.parser.parse(this, originalMessage)` inside a `try` (a raised error
is wrapped as `new ParsingError(error.message)`, the task completed as
error, and the task returned), otherwise stores the payload, computes the
first delay `this.calculateInterval(task)` (with `retries == 0`),
increments `totalPending` in `retryPromise`, arms the timer, and awaits
the retry loop inside a second `try` whose catch only logs — the task is
returned either way. -/
def executeE (cfg : Config) (parser : ParserFn) (handler : HandlerFn)
    (stats : Stats) (originalMessage : Val) : Except JsError ExecResult :=
  let task := newTask cfg.maxRetries originalMessage
  match parser Val.execRef originalMessage with
  | .error e =>
    let task := task.setCompletedAsError (.parsing e.message)
    .ok { task := task
          stats := stats
          events := []
          handlerCalls := 0
          parserArgs := some (Val.execRef, originalMessage) }
  | .ok payload =>
    let task := task.setMessage payload
    let d := calculateInterval cfg task
    let stats := { stats with totalPending := stats.totalPending + 1 }
    let r := handleTask cfg handler stats task
    match r.outcome with
    | .ok _ =>
      .ok { task := r.task
            stats := r.stats
            events := .sched d :: r.events
            handlerCalls := r.handlerCalls
            parserArgs := some (Val.execRef, originalMessage) }
    | .error _ =>
      .ok { task := r.task
            stats := r.stats
            events := .sched d :: r.events
            handlerCalls := r.handlerCalls
            parserArgs := some (Val.execRef, originalMessage) }

/-- The task actually handed back to the caller of `execute`. Since the
code catches every error (`executeE` never returns `.error`), the default
branch is unreachable. -/
def execute (cfg : Config) (parser : ParserFn) (handler : HandlerFn)
    (stats : Stats) (originalMessage : Val) : ExecResult :=
  match executeE cfg parser handler stats originalMessage with
  | .ok r => r
  | .error _ =>
    { task := newTask cfg.maxRetries originalMessage
      stats := stats
      events := []
      handlerCalls := 0
      parserArgs := none }

/-! ### CronTask

`CronTask.calculateInterval` for expressions of the shape `*/N * * * *`.
The minute field starts with `*/`, so `getSecondsfromCronExpression`
extracts `N` (the first `/(\d+)/` match) and `N` seconds are added to the
working instant. The minute field is also `!== '*'`, so the code then
calls `nextExecution.set('minute', '*/N')`; moment's setter ignores any
value for which `isNaN(value)` holds, so that call is a no-op, but the
carry test `now.minute() > nextExecution.minute()` still runs and adds one
hour when it holds. The remaining four fields are `'*'`, so their branches
are skipped, and the result is `nextExecution.diff(now)` in milliseconds.
Instants are modelled as milliseconds on a timeline whose origin is
aligned to an hour boundary. -/

/-- The minute-of-hour of an instant given in milliseconds, as returned by
moment's `.minute()`. -/
def minuteOf (t : Nat) : Nat := t / 60000 % 60

/-- `CronTask.calculateInterval` specialized to the expression
`*/n * * * *` at current time `now` (ms). -/
def cronStepCalculateInterval (n : Nat) (now : Nat) : Nat :=
  let next := now + n * 1000
  let next := if minuteOf now > minuteOf next then next + 3600000 else next
  next - now

/-! ### TaskScheduler

The tick loop of `TaskScheduler.start`: on each timer fire the fetcher's
messages are each dispatched through `executor.execute` (all stats
mutations are increments on the executor's single stats record, so the
concurrent dispatch of one batch is modelled as a fold), then `maxLoops`
is decremented when positive, and the loop either re-arms the timer or
calls `stop()`, which resolves the completion promise. -/

/-- The default `MessageFetcher.fetchMessages` result: `[{}, {}]`, i.e.
two messages per tick. -/
def defaultFetchedMessages : List Val := [Val.obj, Val.obj]

/-- Scheduler state: the remaining `maxLoops` counter (an integer, since
`-1` means unbounded), the executor's stats, and whether `stop()` has run
(which resolves the completion promise). -/
structure SchedState where
  maxLoops : Int
  stats : Stats
  stopped : Bool
deriving DecidableEq, Repr

/-- One tick of `TaskScheduler.start`: execute every fetched message,
then `if (this.maxLoops > 0) this.maxLoops--;` and
`if (this.maxLoops > 0 || this.maxLoops == -1) this.start(); else
this.stop();`. -/
def schedTick (cfg : Config) (parser : ParserFn) (handler : HandlerFn)
    (msgs : List Val) (s : SchedState) : SchedState :=
  let stats := msgs.foldl
    (fun st m => (execute cfg parser handler st m).stats) s.stats
  let m := if s.maxLoops > 0 then s.maxLoops - 1 else s.maxLoops
  if m > 0 ∨ m = -1 then
    { maxLoops := m, stats := stats, stopped := false }
  else
    { maxLoops := m, stats := stats, stopped := true }

/-- Run the scheduler for at most `n` ticks, stopping early once
`stop()` has fired (after which no timer is armed). -/
def schedRun (cfg : Config) (parser : ParserFn) (handler : HandlerFn)
    (msgs : List Val) : Nat → SchedState → SchedState
  | 0, s => s
  | n + 1, s =>
    if s.stopped then s
    else schedRun cfg parser handler msgs n (schedTick cfg parser handler msgs s)

/-! ### Concrete collaborator behaviors used in the claims -/

/-- A parser that always succeeds with a generic object payload. -/
def okParser : ParserFn := fun _ _ => .ok Val.obj

/-- A parser that always throws a plain Error, as in the repository's
`test with parser error` test. -/
def throwingParser : ParserFn := fun _ _ => .error (.generic "test error parsing")

/-- JavaScript argument binding for a parser written to the documented
unary contract `parse(rawMessage) → payload`: a function declared with one
parameter, when called with two positional arguments, binds the first
argument and ignores the second. -/
def unaryParser (f : Val → Except JsError Val) : ParserFn := fun a _ => f a

/-- A handler that always returns the string `"ok"`. -/
def okHandler : HandlerFn := fun _ => .ok (.str "ok")

/-- A handler that always throws a `FatalError`. -/
def fatalHandler : HandlerFn := fun _ => .error (.fatal "test")

/-- A handler that throws a plain (transient) error on the first attempt
and succeeds afterwards. -/
def failOnceHandler : HandlerFn := fun t =>
  if t.retries = 1 then .error (.generic "boom") else .ok (.str "ok")

/-- A handler that always throws a plain (transient) error. -/
def alwaysFailHandler : HandlerFn := fun _ => .error (.generic "boom")

/-- Initial stats: all counters start at zero. -/
def zeroStats : Stats := { totalPending := 0, totalExecuted := 0, totalErrors := 0 }

/-- The parsed task entering the retry loop: fresh task with the payload
stored. -/
def parsedTask (cfg : Config) (msg p : Val) : Task :=
  (newTask cfg.maxRetries msg).setMessage p

/-! ### General lemmas about the retry loop -/

theorem orDefault_pos (v : Nat) : 1 ≤ orDefault v 10 := by
  unfold orDefault
  split <;> omega

/-- Unfolding equation for `handleTask` when the handler attempt succeeds. -/
theorem handleTask_eq_success (cfg : Config) (handler : HandlerFn)
    (stats : Stats) (t : Task) (result : Val)
    (hh : handler t.increaseRetries = .ok result) :
    handleTask cfg handler stats t =
      { task := t.increaseRetries.setCompletedAsSuccess result
        stats := { stats with totalExecuted := stats.totalExecuted + 1 }
        outcome := .ok (t.increaseRetries.setCompletedAsSuccess result)
        events := [.attempt t.increaseRetries.retries]
        handlerCalls := 1 } := by
  unfold handleTask
  simp [hh]

/-- Unfolding equation for `handleTask` when the handler attempt fails
fatally or exhausts the retries. -/
theorem handleTask_eq_terminal (cfg : Config) (handler : HandlerFn)
    (stats : Stats) (t : Task) (e : JsError)
    (hh : handler t.increaseRetries = .error e)
    (hcond : e.isFatal = true ∨ t.increaseRetries.maxRetries ≤ t.increaseRetries.retries) :
    handleTask cfg handler stats t =
      { task := t.increaseRetries.setCompletedAsError e
        stats := { stats with
          totalExecuted := stats.totalExecuted + 1
          totalErrors := stats.totalErrors + 1 }
        outcome := .error e
        events := [.attempt t.increaseRetries.retries]
        handlerCalls := 1 } := by
  unfold handleTask
  simp only [hh]
  rw [if_pos hcond]

/-- Unfolding equation for `handleTask` when the attempt fails transiently
on a task whose status was already `'error'` on entry (unreachable from
`execute`, which enters the loop with a pending task). -/
theorem handleTask_eq_entryError (cfg : Config) (handler : HandlerFn)
    (stats : Stats) (t : Task) (e : JsError)
    (hh : handler t.increaseRetries = .error e)
    (hcond : ¬(e.isFatal = true ∨ t.increaseRetries.maxRetries ≤ t.increaseRetries.retries))
    (hstat : t.increaseRetries.status = .error) :
    handleTask cfg handler stats t =
      { task := t.increaseRetries
        stats := { stats with
          totalExecuted := stats.totalExecuted + 1
          totalErrors := stats.totalErrors + 1 }
        outcome := .error e
        events := [.attempt t.increaseRetries.retries]
        handlerCalls := 1 } := by
  unfold handleTask
  simp only [hh]
  rw [if_neg hcond, if_pos hstat]

/-- Unfolding equation for `handleTask` when the attempt fails transiently
and a new timer is armed. -/
theorem handleTask_eq_retry (cfg : Config) (handler : HandlerFn)
    (stats : Stats) (t : Task) (e : JsError)
    (hh : handler t.increaseRetries = .error e)
    (hcond : ¬(e.isFatal = true ∨ t.increaseRetries.maxRetries ≤ t.increaseRetries.retries))
    (hstat : ¬t.increaseRetries.status = .error) :
    handleTask cfg handler stats t =
      { handleTask cfg handler stats (t.increaseRetries.setLastError e) with
        events := .attempt t.increaseRetries.retries ::
          .sched (calculateInterval cfg (t.increaseRetries.setLastError e)) ::
          (handleTask cfg handler stats (t.increaseRetries.setLastError e)).events
        handlerCalls :=
          (handleTask cfg handler stats (t.increaseRetries.setLastError e)).handlerCalls + 1 } := by
  conv_lhs => unfold handleTask
  simp only [hh]
  rw [if_neg hcond, if_neg hstat]

/-- The branch analysis of one pass of the loop: on a task that is not yet
terminal and still below the retry ceiling, `handleTask` either finishes on
this attempt or recurses on the task with `retries` incremented and
`lastError` set. Stated as a strong induction scheme over the decreasing
measure `maxRetries - retries`. -/
theorem handleTask_maxRetriesAux (cfg : Config) (handler : HandlerFn)
    (stats : Stats) :
    ∀ (k : Nat) (t : Task), t.maxRetries - t.retries ≤ k →
      (handleTask cfg handler stats t).task.maxRetries = t.maxRetries := by
  intro k
  induction k with
  | zero =>
    intro t hk
    cases hh : handler t.increaseRetries with
    | ok result =>
      rw [handleTask_eq_success cfg handler stats t result hh]
      simp [Task.increaseRetries, Task.setCompletedAsSuccess]
    | error e =>
      by_cases hcond : e.isFatal = true ∨
          t.increaseRetries.maxRetries ≤ t.increaseRetries.retries
      · rw [handleTask_eq_terminal cfg handler stats t e hh hcond]
        simp [Task.increaseRetries, Task.setCompletedAsError]
      · exfalso
        simp only [not_or, Task.increaseRetries] at hcond
        omega
  | succ k ih =>
    intro t hk
    cases hh : handler t.increaseRetries with
    | ok result =>
      rw [handleTask_eq_success cfg handler stats t result hh]
      simp [Task.increaseRetries, Task.setCompletedAsSuccess]
    | error e =>
      by_cases hcond : e.isFatal = true ∨
          t.increaseRetries.maxRetries ≤ t.increaseRetries.retries
      · rw [handleTask_eq_terminal cfg handler stats t e hh hcond]
        simp [Task.increaseRetries, Task.setCompletedAsError]
      · by_cases hstat : t.increaseRetries.status = .error
        · rw [handleTask_eq_entryError cfg handler stats t e hh hcond hstat]
          simp [Task.increaseRetries]
        · rw [handleTask_eq_retry cfg handler stats t e hh hcond hstat]
          simp only [not_or, Task.increaseRetries] at hcond
          have := ih (t.increaseRetries.setLastError e)
            (by simp [Task.increaseRetries, Task.setLastError]; omega)
          simp only [Task.increaseRetries, Task.setLastError] at this ⊢
          rw [this]

/-- The retry loop never changes `maxRetries`. -/
theorem handleTask_maxRetries (cfg : Config) (handler : HandlerFn)
    (stats : Stats) (t : Task) :
    (handleTask cfg handler stats t).task.maxRetries = t.maxRetries :=
  handleTask_maxRetriesAux cfg handler stats (t.maxRetries - t.retries) t (le_refl _)

theorem handleTask_retries_lbAux (cfg : Config) (handler : HandlerFn)
    (stats : Stats) :
    ∀ (k : Nat) (t : Task), t.maxRetries - t.retries ≤ k →
      t.retries + 1 ≤ (handleTask cfg handler stats t).task.retries := by
  intro k
  induction k with
  | zero =>
    intro t hk
    cases hh : handler t.increaseRetries with
    | ok result =>
      rw [handleTask_eq_success cfg handler stats t result hh]
      simp [Task.increaseRetries, Task.setCompletedAsSuccess]
    | error e =>
      by_cases hcond : e.isFatal = true ∨
          t.increaseRetries.maxRetries ≤ t.increaseRetries.retries
      · rw [handleTask_eq_terminal cfg handler stats t e hh hcond]
        simp [Task.increaseRetries, Task.setCompletedAsError]
      · exfalso
        simp only [not_or, Task.increaseRetries] at hcond
        omega
  | succ k ih =>
    intro t hk
    cases hh : handler t.increaseRetries with
    | ok result =>
      rw [handleTask_eq_success cfg handler stats t result hh]
      simp [Task.increaseRetries, Task.setCompletedAsSuccess]
    | error e =>
      by_cases hcond : e.isFatal = true ∨
          t.increaseRetries.maxRetries ≤ t.increaseRetries.retries
      · rw [handleTask_eq_terminal cfg handler stats t e hh hcond]
        simp [Task.increaseRetries, Task.setCompletedAsError]
      · by_cases hstat : t.increaseRetries.status = .error
        · rw [handleTask_eq_entryError cfg handler stats t e hh hcond hstat]
          simp [Task.increaseRetries]
        · rw [handleTask_eq_retry cfg handler stats t e hh hcond hstat]
          simp only [not_or, Task.increaseRetries] at hcond
          have := ih (t.increaseRetries.setLastError e)
            (by simp [Task.increaseRetries, Task.setLastError]; omega)
          simp only [Task.increaseRetries, Task.setLastError] at this ⊢
          omega

/-- Each pass through the loop increments `retries` at least once. -/
theorem handleTask_retries_lb (cfg : Config) (handler : HandlerFn)
    (stats : Stats) (t : Task) :
    t.retries + 1 ≤ (handleTask cfg handler stats t).task.retries :=
  handleTask_retries_lbAux cfg handler stats (t.maxRetries - t.retries) t (le_refl _)

theorem handleTask_retries_ubAux (cfg : Config) (handler : HandlerFn)
    (stats : Stats) :
    ∀ (k : Nat) (t : Task), t.maxRetries - t.retries ≤ k →
      t.retries < t.maxRetries →
      (handleTask cfg handler stats t).task.retries ≤ t.maxRetries := by
  intro k
  induction k with
  | zero =>
    intro t hk hlt
    omega
  | succ k ih =>
    intro t hk hlt
    cases hh : handler t.increaseRetries with
    | ok result =>
      rw [handleTask_eq_success cfg handler stats t result hh]
      simp only [Task.increaseRetries, Task.setCompletedAsSuccess]
      omega
    | error e =>
      by_cases hcond : e.isFatal = true ∨
          t.increaseRetries.maxRetries ≤ t.increaseRetries.retries
      · rw [handleTask_eq_terminal cfg handler stats t e hh hcond]
        simp only [Task.increaseRetries, Task.setCompletedAsError]
        omega
      · by_cases hstat : t.increaseRetries.status = .error
        · rw [handleTask_eq_entryError cfg handler stats t e hh hcond hstat]
          simp only [Task.increaseRetries]
          omega
        · rw [handleTask_eq_retry cfg handler stats t e hh hcond hstat]
          simp only [not_or, Task.increaseRetries] at hcond
          have := ih (t.increaseRetries.setLastError e)
            (by simp [Task.increaseRetries, Task.setLastError]; omega)
            (by simp [Task.increaseRetries, Task.setLastError]; omega)
          simp only [Task.increaseRetries, Task.setLastError] at this ⊢
          omega

/-- The loop stops as soon as `retries` reaches `maxRetries`: started below
the ceiling, it ends at or below the ceiling. -/
theorem handleTask_retries_ub (cfg : Config) (handler : HandlerFn)
    (stats : Stats) (t : Task) (hlt : t.retries < t.maxRetries) :
    (handleTask cfg handler stats t).task.retries ≤ t.maxRetries :=
  handleTask_retries_ubAux cfg handler stats (t.maxRetries - t.retries) t (le_refl _) hlt

theorem handleTask_error_fatalAux (cfg : Config) (handler : HandlerFn)
    (stats : Stats) :
    ∀ (k : Nat) (t : Task), t.maxRetries - t.retries ≤ k →
      t.status = .pending →
      (handleTask cfg handler stats t).task.status = .error →
      (handleTask cfg handler stats t).task.retries <
        (handleTask cfg handler stats t).task.maxRetries →
      ∃ m, (handleTask cfg handler stats t).task.lastError = some (.fatal m) := by
  intro k
  induction k with
  | zero =>
    intro t hk hpend herr hlt
    cases hh : handler t.increaseRetries with
    | ok result =>
      rw [handleTask_eq_success cfg handler stats t result hh] at herr
      simp [Task.increaseRetries, Task.setCompletedAsSuccess] at herr
    | error e =>
      by_cases hcond : e.isFatal = true ∨
          t.increaseRetries.maxRetries ≤ t.increaseRetries.retries
      · rw [handleTask_eq_terminal cfg handler stats t e hh hcond] at hlt ⊢
        simp only [Task.increaseRetries, Task.setCompletedAsError] at hcond hlt ⊢
        rcases hcond with hf | hle
        · cases e with
          | fatal m => exact ⟨m, rfl⟩
          | parsing m => simp [JsError.isFatal] at hf
          | generic m => simp [JsError.isFatal] at hf
        · exfalso
          omega
      · exfalso
        simp only [not_or, Task.increaseRetries] at hcond
        omega
  | succ k ih =>
    intro t hk hpend herr hlt
    cases hh : handler t.increaseRetries with
    | ok result =>
      rw [handleTask_eq_success cfg handler stats t result hh] at herr
      simp [Task.increaseRetries, Task.setCompletedAsSuccess] at herr
    | error e =>
      by_cases hcond : e.isFatal = true ∨
          t.increaseRetries.maxRetries ≤ t.increaseRetries.retries
      · rw [handleTask_eq_terminal cfg handler stats t e hh hcond] at hlt ⊢
        simp only [Task.increaseRetries, Task.setCompletedAsError] at hcond hlt ⊢
        rcases hcond with hf | hle
        · cases e with
          | fatal m => exact ⟨m, rfl⟩
          | parsing m => simp [JsError.isFatal] at hf
          | generic m => simp [JsError.isFatal] at hf
        · exfalso
          omega
      · by_cases hstat : t.increaseRetries.status = .error
        · exfalso
          simp only [Task.increaseRetries] at hstat
          rw [hpend] at hstat
          simp at hstat
        · rw [handleTask_eq_retry cfg handler stats t e hh hcond hstat] at herr hlt ⊢
          simp only [not_or, Task.increaseRetries] at hcond
          simp only [] at herr hlt ⊢
          exact ih (t.increaseRetries.setLastError e)
            (by simp [Task.increaseRetries, Task.setLastError]; omega)
            (by simp [Task.increaseRetries, Task.setLastError, hpend])
            herr hlt

/-- When the loop terminates in `'error'` with retries still below the
ceiling, the terminating error (stored by `setCompletedAsError` into
`lastError`) was a `FatalError`. -/
theorem handleTask_error_fatal (cfg : Config) (handler : HandlerFn)
    (stats : Stats) (t : Task) (hpend : t.status = .pending)
    (herr : (handleTask cfg handler stats t).task.status = .error)
    (hlt : (handleTask cfg handler stats t).task.retries <
      (handleTask cfg handler stats t).task.maxRetries) :
    ∃ m, (handleTask cfg handler stats t).task.lastError = some (.fatal m) :=
  handleTask_error_fatalAux cfg handler stats (t.maxRetries - t.retries) t
    (le_refl _) hpend herr hlt

theorem handleTask_success_lastErrorAux (cfg : Config) (handler : HandlerFn)
    (stats : Stats) :
    ∀ (k : Nat) (t : Task), t.maxRetries - t.retries ≤ k →
      (handleTask cfg handler stats t).task.status = .success →
      ((handleTask cfg handler stats t).task.lastError = none ↔
        (t.lastError = none ∧
          (handleTask cfg handler stats t).task.retries = t.retries + 1)) := by
  intro k
  induction k with
  | zero =>
    intro t hk hsucc
    cases hh : handler t.increaseRetries with
    | ok result =>
      rw [handleTask_eq_success cfg handler stats t result hh]
      simp [Task.increaseRetries, Task.setCompletedAsSuccess]
    | error e =>
      by_cases hcond : e.isFatal = true ∨
          t.increaseRetries.maxRetries ≤ t.increaseRetries.retries
      · exfalso
        rw [handleTask_eq_terminal cfg handler stats t e hh hcond] at hsucc
        simp [Task.increaseRetries, Task.setCompletedAsError] at hsucc
      · exfalso
        simp only [not_or, Task.increaseRetries] at hcond
        omega
  | succ k ih =>
    intro t hk hsucc
    cases hh : handler t.increaseRetries with
    | ok result =>
      rw [handleTask_eq_success cfg handler stats t result hh]
      simp [Task.increaseRetries, Task.setCompletedAsSuccess]
    | error e =>
      by_cases hcond : e.isFatal = true ∨
          t.increaseRetries.maxRetries ≤ t.increaseRetries.retries
      · exfalso
        rw [handleTask_eq_terminal cfg handler stats t e hh hcond] at hsucc
        simp [Task.increaseRetries, Task.setCompletedAsError] at hsucc
      · by_cases hstat : t.increaseRetries.status = .error
        · exfalso
          rw [handleTask_eq_entryError cfg handler stats t e hh hcond hstat] at hsucc
          simp only [Task.increaseRetries] at hsucc hstat
          rw [hsucc] at hstat
          simp at hstat
        · rw [handleTask_eq_retry cfg handler stats t e hh hcond hstat] at hsucc ⊢
          simp only [] at hsucc ⊢
          have h5 := ih (t.increaseRetries.setLastError e)
            (by simp only [not_or, Task.increaseRetries] at hcond
                simp [Task.increaseRetries, Task.setLastError]
                omega)
            hsucc
          have hlb := handleTask_retries_lb cfg handler stats
            (t.increaseRetries.setLastError e)
          simp only [Task.increaseRetries, Task.setLastError] at h5 hlb ⊢
          simp at h5
          constructor
          · intro hnone
            exact absurd hnone h5
          · rintro ⟨-, hr⟩
            exfalso
            omega

/-- When the loop terminates in `'success'`, `lastError` is still `none`
exactly when it was `none` on entry and the very first attempt succeeded
(`setCompletedAsSuccess` never clears `lastError`). -/
theorem handleTask_success_lastError (cfg : Config) (handler : HandlerFn)
    (stats : Stats) (t : Task)
    (hsucc : (handleTask cfg handler stats t).task.status = .success) :
    (handleTask cfg handler stats t).task.lastError = none ↔
      (t.lastError = none ∧
        (handleTask cfg handler stats t).task.retries = t.retries + 1) :=
  handleTask_success_lastErrorAux cfg handler stats (t.maxRetries - t.retries) t
    (le_refl _) hsucc

/-- Backoff adjacency in the event trace of the loop: whenever a handler
attempt that observed `retries == n` is immediately followed by the arming
of a timer, the armed delay is `calculateInterval` of a task with
`retries == n`, i.e. `min(intervalMs * 2^n, maxIntervalMs)`. -/
theorem handleTask_schedAux (cfg : Config) (handler : HandlerFn)
    (stats : Stats) :
    ∀ (k : Nat) (t : Task), t.maxRetries - t.retries ≤ k →
      ∀ (i n d : Nat),
        (handleTask cfg handler stats t).events[i]? = some (.attempt n) →
        (handleTask cfg handler stats t).events[i + 1]? = some (.sched d) →
        d = min (cfg.intervalMs * 2 ^ n) cfg.maxIntervalMs := by
  intro k
  induction k with
  | zero =>
    intro t hk i n d h1 h2
    cases hh : handler t.increaseRetries with
    | ok result =>
      rw [handleTask_eq_success cfg handler stats t result hh] at h1 h2
      simp only [] at h1 h2
      cases i with
      | zero => simp at h2
      | succ i => simp at h1
    | error e =>
      by_cases hcond : e.isFatal = true ∨
          t.increaseRetries.maxRetries ≤ t.increaseRetries.retries
      · rw [handleTask_eq_terminal cfg handler stats t e hh hcond] at h1 h2
        simp only [] at h1 h2
        cases i with
        | zero => simp at h2
        | succ i => simp at h1
      · exfalso
        simp only [not_or, Task.increaseRetries] at hcond
        omega
  | succ k ih =>
    intro t hk i n d h1 h2
    cases hh : handler t.increaseRetries with
    | ok result =>
      rw [handleTask_eq_success cfg handler stats t result hh] at h1 h2
      simp only [] at h1 h2
      cases i with
      | zero => simp at h2
      | succ i => simp at h1
    | error e =>
      by_cases hcond : e.isFatal = true ∨
          t.increaseRetries.maxRetries ≤ t.increaseRetries.retries
      · rw [handleTask_eq_terminal cfg handler stats t e hh hcond] at h1 h2
        simp only [] at h1 h2
        cases i with
        | zero => simp at h2
        | succ i => simp at h1
      · by_cases hstat : t.increaseRetries.status = .error
        · rw [handleTask_eq_entryError cfg handler stats t e hh hcond hstat] at h1 h2
          simp only [] at h1 h2
          cases i with
          | zero => simp at h2
          | succ i => simp at h1
        · rw [handleTask_eq_retry cfg handler stats t e hh hcond hstat] at h1 h2
          simp only [] at h1 h2
          cases i with
          | zero =>
            simp only [List.getElem?_cons_zero, List.getElem?_cons_succ,
              Option.some.injEq] at h1 h2
            cases h1
            cases h2
            simp [calculateInterval, Task.increaseRetries, Task.setLastError]
          | succ i =>
            cases i with
            | zero => simp at h1
            | succ i =>
              simp only [List.getElem?_cons_succ] at h1 h2
              simp only [not_or, Task.increaseRetries] at hcond
              exact ih (t.increaseRetries.setLastError e)
                (by simp [Task.increaseRetries, Task.setLastError]; omega)
                i n d h1 h2

/-- Backoff adjacency, instantiated at the natural measure. -/
theorem handleTask_sched (cfg : Config) (handler : HandlerFn) (stats : Stats)
    (t : Task) (i n d : Nat)
    (h1 : (handleTask cfg handler stats t).events[i]? = some (.attempt n))
    (h2 : (handleTask cfg handler stats t).events[i + 1]? = some (.sched d)) :
    d = min (cfg.intervalMs * 2 ^ n) cfg.maxIntervalMs :=
  handleTask_schedAux cfg handler stats (t.maxRetries - t.retries) t
    (le_refl _) i n d h1 h2

/-- Every `attempt` event of the loop trace records a retries value at
least one above the entry value (the increment precedes the handler call). -/
theorem handleTask_attempt_lbAux (cfg : Config) (handler : HandlerFn)
    (stats : Stats) :
    ∀ (k : Nat) (t : Task), t.maxRetries - t.retries ≤ k →
      ∀ (i n : Nat),
        (handleTask cfg handler stats t).events[i]? = some (.attempt n) →
        t.retries + 1 ≤ n := by
  intro k
  induction k with
  | zero =>
    intro t hk i n h1
    cases hh : handler t.increaseRetries with
    | ok result =>
      rw [handleTask_eq_success cfg handler stats t result hh] at h1
      simp only [] at h1
      cases i with
      | zero =>
        simp only [List.getElem?_cons_zero, Option.some.injEq] at h1
        cases h1
        simp [Task.increaseRetries]
      | succ i => simp at h1
    | error e =>
      by_cases hcond : e.isFatal = true ∨
          t.increaseRetries.maxRetries ≤ t.increaseRetries.retries
      · rw [handleTask_eq_terminal cfg handler stats t e hh hcond] at h1
        simp only [] at h1
        cases i with
        | zero =>
          simp only [List.getElem?_cons_zero, Option.some.injEq] at h1
          cases h1
          simp [Task.increaseRetries]
        | succ i => simp at h1
      · exfalso
        simp only [not_or, Task.increaseRetries] at hcond
        omega
  | succ k ih =>
    intro t hk i n h1
    cases hh : handler t.increaseRetries with
    | ok result =>
      rw [handleTask_eq_success cfg handler stats t result hh] at h1
      simp only [] at h1
      cases i with
      | zero =>
        simp only [List.getElem?_cons_zero, Option.some.injEq] at h1
        cases h1
        simp [Task.increaseRetries]
      | succ i => simp at h1
    | error e =>
      by_cases hcond : e.isFatal = true ∨
          t.increaseRetries.maxRetries ≤ t.increaseRetries.retries
      · rw [handleTask_eq_terminal cfg handler stats t e hh hcond] at h1
        simp only [] at h1
        cases i with
        | zero =>
          simp only [List.getElem?_cons_zero, Option.some.injEq] at h1
          cases h1
          simp [Task.increaseRetries]
        | succ i => simp at h1
      · by_cases hstat : t.increaseRetries.status = .error
        · rw [handleTask_eq_entryError cfg handler stats t e hh hcond hstat] at h1
          simp only [] at h1
          cases i with
          | zero =>
            simp only [List.getElem?_cons_zero, Option.some.injEq] at h1
            cases h1
            simp [Task.increaseRetries]
          | succ i => simp at h1
        · rw [handleTask_eq_retry cfg handler stats t e hh hcond hstat] at h1
          simp only [] at h1
          cases i with
          | zero =>
            simp only [List.getElem?_cons_zero, Option.some.injEq] at h1
            cases h1
            simp [Task.increaseRetries]
          | succ i =>
            cases i with
            | zero => simp at h1
            | succ i =>
              simp only [List.getElem?_cons_succ] at h1
              simp only [not_or, Task.increaseRetries] at hcond
              have := ih (t.increaseRetries.setLastError e)
                (by simp [Task.increaseRetries, Task.setLastError]; omega)
                i n h1
              simp only [Task.increaseRetries, Task.setLastError] at this
              omega

/-! ### Normal forms of `execute` -/

/-- `execute` when the parser throws: the task is completed as error with a
`ParsingError` wrapping the thrown error's message, no timer is armed and
the handler is never called. -/
theorem execute_parseError (cfg : Config) (parser : ParserFn)
    (handler : HandlerFn) (stats : Stats) (msg : Val) (e : JsError)
    (hp : parser Val.execRef msg = .error e) :
    execute cfg parser handler stats msg =
      { task := (newTask cfg.maxRetries msg).setCompletedAsError (.parsing e.message)
        stats := stats
        events := []
        handlerCalls := 0
        parserArgs := some (Val.execRef, msg) } := by
  unfold execute executeE
  simp [hp]

/-- `execute` when the parser succeeds: the first timer is armed with the
interval computed at `retries == 0` and the retry loop runs, its rejection
(if any) being caught. -/
theorem execute_parseOk (cfg : Config) (parser : ParserFn)
    (handler : HandlerFn) (stats : Stats) (msg p : Val)
    (hp : parser Val.execRef msg = .ok p) :
    execute cfg parser handler stats msg =
      { task := (handleTask cfg handler
          { stats with totalPending := stats.totalPending + 1 }
          (parsedTask cfg msg p)).task
        stats := (handleTask cfg handler
          { stats with totalPending := stats.totalPending + 1 }
          (parsedTask cfg msg p)).stats
        events := .sched (calculateInterval cfg (parsedTask cfg msg p)) ::
          (handleTask cfg handler
            { stats with totalPending := stats.totalPending + 1 }
            (parsedTask cfg msg p)).events
        handlerCalls := (handleTask cfg handler
          { stats with totalPending := stats.totalPending + 1 }
          (parsedTask cfg msg p)).handlerCalls
        parserArgs := some (Val.execRef, msg) } := by
  unfold execute executeE parsedTask
  simp only [hp]
  cases ho : (handleTask cfg handler
      { stats with totalPending := stats.totalPending + 1 }
      ((newTask cfg.maxRetries msg).setMessage p)).outcome <;>
    simp [ho]

/-- Basic facts about the freshly parsed task entering the loop. -/
theorem parsedTask_fields (cfg : Config) (msg p : Val) :
    (parsedTask cfg msg p).retries = 0 ∧
    (parsedTask cfg msg p).maxRetries = orDefault cfg.maxRetries 10 ∧
    (parsedTask cfg msg p).lastError = none ∧
    (parsedTask cfg msg p).status = .pending := by
  simp [parsedTask, newTask, Task.setMessage]

/-! ### Claims -/

/-- C1: for every task handled by the retry loop, after a transient
handler failure (not a FatalError, retries still below maxRetries) on the
attempt that left `task.retries == n` (n ≥ 1), the delay scheduled before
the next attempt is exactly `min(intervalMs * 2^n, maxIntervalMs)`; in
particular (whenever `2 * intervalMs` does not exceed the ceiling, as with
the defaults) the first retry after the initial attempt is scheduled after
`intervalMs * 2` milliseconds. -/
theorem c1_backoff_after_transient_failure (cfg : Config) (parser : ParserFn)
    (handler : HandlerFn) (stats : Stats) (msg : Val) (i n d : Nat)
    (h1 : (execute cfg parser handler stats msg).events[i]? = some (.attempt n))
    (h2 : (execute cfg parser handler stats msg).events[i + 1]? = some (.sched d)) :
    d = min (cfg.intervalMs * 2 ^ n) cfg.maxIntervalMs ∧ 1 ≤ n ∧
    (2 * cfg.intervalMs ≤ cfg.maxIntervalMs → n = 1 → d = 2 * cfg.intervalMs) := by
  cases hp : parser Val.execRef msg with
  | error e =>
    rw [execute_parseError cfg parser handler stats msg e hp] at h1
    simp at h1
  | ok p =>
    rw [execute_parseOk cfg parser handler stats msg p hp] at h1 h2
    simp only [] at h1 h2
    cases i with
    | zero => simp at h1
    | succ i =>
      simp only [List.getElem?_cons_succ] at h1 h2
      have hmain := handleTask_sched cfg handler
        { stats with totalPending := stats.totalPending + 1 }
        (parsedTask cfg msg p) i n d h1 h2
      have hlb := handleTask_attempt_lbAux cfg handler
        { stats with totalPending := stats.totalPending + 1 }
        ((parsedTask cfg msg p).maxRetries - (parsedTask cfg msg p).retries)
        (parsedTask cfg msg p) (le_refl _) i n h1
      simp only [parsedTask, newTask, Task.setMessage] at hlb
      refine ⟨hmain, by omega, ?_⟩
      intro hle hn
      rw [hn] at hmain
      simp only [pow_one] at hmain
      omega

unseal handleTask in
theorem c1_backoff_after_transient_failure_witness :
    2000 = min (defaultConfig.intervalMs * 2 ^ 1) defaultConfig.maxIntervalMs ∧
    1 ≤ 1 ∧
    (2 * defaultConfig.intervalMs ≤ defaultConfig.maxIntervalMs → 1 = 1 →
      2000 = 2 * defaultConfig.intervalMs) :=
  c1_backoff_after_transient_failure defaultConfig okParser alwaysFailHandler
    zeroStats (Val.str "m") 1 1 2000 (by decide) (by decide)

/-- C2 counterexample: with a throwing parser (explicitly included in the
claim) the returned task has `status == 'error'` and
`retries < maxRetries`, yet its terminating error is a ParsingError, not a
FatalError, so the claim as stated is false. -/
theorem c2_counterexample :
    (execute defaultConfig throwingParser okHandler zeroStats
      (Val.str "test")).task.status = .error ∧
    (execute defaultConfig throwingParser okHandler zeroStats
      (Val.str "test")).task.retries <
      (execute defaultConfig throwingParser okHandler zeroStats
        (Val.str "test")).task.maxRetries ∧
    ∀ m, (execute defaultConfig throwingParser okHandler zeroStats
      (Val.str "test")).task.lastError ≠ some (.fatal m) := by
  refine ⟨rfl, by decide, ?_⟩
  intro m h
  rw [show (execute defaultConfig throwingParser okHandler zeroStats
    (Val.str "test")).task.lastError
    = some (JsError.parsing "test error parsing") from rfl] at h
  simp at h

/-- C2 (amended): for every task returned by `execute`, `retries` never
exceeds `maxRetries`; and every returned task with `status == 'error'` and
`retries < maxRetries` had either a FatalError as its terminating error,
or was a parse failure (`retries == 0` with a ParsingError as the
terminating error). -/
theorem c2_retries_bounded_and_error_classified (cfg : Config)
    (parser : ParserFn) (handler : HandlerFn) (stats : Stats) (msg : Val) :
    (execute cfg parser handler stats msg).task.retries ≤
      (execute cfg parser handler stats msg).task.maxRetries ∧
    ((execute cfg parser handler stats msg).task.status = .error →
      (execute cfg parser handler stats msg).task.retries <
        (execute cfg parser handler stats msg).task.maxRetries →
      (∃ m, (execute cfg parser handler stats msg).task.lastError =
        some (.fatal m)) ∨
      ((execute cfg parser handler stats msg).task.retries = 0 ∧
        ∃ m, (execute cfg parser handler stats msg).task.lastError =
          some (.parsing m))) := by
  cases hp : parser Val.execRef msg with
  | error e =>
    rw [execute_parseError cfg parser handler stats msg e hp]
    refine ⟨?_, ?_⟩
    · simp [newTask, Task.setCompletedAsError]
    · intro _ _
      exact Or.inr ⟨rfl, e.message, rfl⟩
  | ok p =>
    rw [execute_parseOk cfg parser handler stats msg p hp]
    simp only []
    obtain ⟨hr0, hmax, hle, hpend⟩ := parsedTask_fields cfg msg p
    constructor
    · rw [handleTask_maxRetries]
      rw [hmax]
      have := handleTask_retries_ub cfg handler
        { stats with totalPending := stats.totalPending + 1 }
        (parsedTask cfg msg p)
        (by rw [hr0, hmax]; exact orDefault_pos cfg.maxRetries)
      rw [hmax] at this
      exact this
    · intro herr hlt
      exact Or.inl (handleTask_error_fatal cfg handler
        { stats with totalPending := stats.totalPending + 1 }
        (parsedTask cfg msg p) hpend herr hlt)

unseal handleTask in
theorem c2_retries_bounded_and_error_classified_witness :
    (∃ m, (execute defaultConfig okParser fatalHandler zeroStats
      (Val.str "m")).task.lastError = some (.fatal m)) ∨
    ((execute defaultConfig okParser fatalHandler zeroStats
      (Val.str "m")).task.retries = 0 ∧
      ∃ m, (execute defaultConfig okParser fatalHandler zeroStats
        (Val.str "m")).task.lastError = some (.parsing m)) :=
  (c2_retries_bounded_and_error_classified defaultConfig okParser fatalHandler
    zeroStats (Val.str "m")).2 (by decide) (by decide)

unseal handleTask in
/-- C3: with a successful parse and a handler that returns `"ok"`,
`execute` yields `status == 'success'` and `retries == 1` as claimed, but
`task.result` is still `null` (`getResult()` does not return `"ok"`):
`setCompletedAsSuccess(result)` never stores its `result` parameter, so no
result is recorded at the terminal transition. -/
theorem c3_success_result_not_recorded :
    (execute defaultConfig okParser okHandler zeroStats
      (Val.str "m")).task.status = .success ∧
    (execute defaultConfig okParser okHandler zeroStats
      (Val.str "m")).task.retries = 1 ∧
    (execute defaultConfig okParser okHandler zeroStats
      (Val.str "m")).task.result = none := by
  decide

/-- C4: whenever the parser raises, `execute` returns a task with
`status == 'error'`, `retries == 0`, and `lastError` a ParsingError
wrapping the raised error's message; the handler is never invoked and no
timer is ever armed (no retry). -/
theorem c4_parser_failure_terminal (cfg : Config) (parser : ParserFn)
    (handler : HandlerFn) (stats : Stats) (msg : Val) (e : JsError)
    (hp : parser Val.execRef msg = .error e) :
    (execute cfg parser handler stats msg).task.status = .error ∧
    (execute cfg parser handler stats msg).task.retries = 0 ∧
    (execute cfg parser handler stats msg).task.lastError =
      some (.parsing e.message) ∧
    (execute cfg parser handler stats msg).handlerCalls = 0 ∧
    (execute cfg parser handler stats msg).events = [] := by
  rw [execute_parseError cfg parser handler stats msg e hp]
  simp [newTask, Task.setCompletedAsError]

theorem c4_parser_failure_terminal_witness :
    (execute defaultConfig throwingParser okHandler zeroStats
      (Val.str "test")).task.status = .error ∧
    (execute defaultConfig throwingParser okHandler zeroStats
      (Val.str "test")).task.retries = 0 ∧
    (execute defaultConfig throwingParser okHandler zeroStats
      (Val.str "test")).task.lastError =
      some (.parsing (JsError.generic "test error parsing").message) ∧
    (execute defaultConfig throwingParser okHandler zeroStats
      (Val.str "test")).handlerCalls = 0 ∧
    (execute defaultConfig throwingParser okHandler zeroStats
      (Val.str "test")).events = [] :=
  c4_parser_failure_terminal defaultConfig throwingParser okHandler zeroStats
    (Val.str "test") (JsError.generic "test error parsing") rfl

/-- C5 counterexample: at 59 minutes 55 seconds past the hour
(3,595,000 ms into the hour) the `*/10` minute step adds 10 seconds, the
minute of the working instant wraps to 0, the carry test
`now.minute() > nextExecution.minute()` fires, and the computed interval
is 3,610,000 ms — not 10,000 ms, so the result does depend on the current
time. -/
theorem c5_counterexample :
    cronStepCalculateInterval 10 3595000 = 3610000 ∧
    cronStepCalculateInterval 10 3595000 ≠ 10000 := by
  decide

/-- C5 (amended): `CronTask('*/10 * * * *').calculateInterval()` returns
exactly 10,000 ms at every instant except those in the final 10 seconds of
an hour (where adding 10 seconds wraps the minute below the current
minute), in which case the minute-carry adds an hour and the result is
3,610,000 ms. -/
theorem c5_cron_step_interval (now : Nat) :
    cronStepCalculateInterval 10 now =
      if now % 3600000 < 3590000 then 10000 else 3610000 := by
  unfold cronStepCalculateInterval minuteOf
  simp only []
  split_ifs <;> omega

unseal handleTask in
/-- C6 counterexample: after the three-tick run completes, the executor's
`totalPending` is 6, not 0 — `retryPromise` increments it at dispatch but
nothing ever decrements it. -/
theorem c6_counterexample :
    (schedRun defaultConfig okParser fatalHandler defaultFetchedMessages 3
      { maxLoops := 3, stats := zeroStats, stopped := false }).stopped = true ∧
    (schedRun defaultConfig okParser fatalHandler defaultFetchedMessages 3
      { maxLoops := 3, stats := zeroStats, stopped := false }).stats.totalPending ≠ 0 := by
  decide

unseal handleTask in
/-- C6 (amended): a TaskScheduler with `maxLoops = 3` over a fetcher
returning 2 messages per tick and a handler that always throws FatalError
runs exactly 3 ticks (still running after 2, stopped with its completion
promise resolved after 3) and ends with `totalExecuted == 6`,
`totalErrors == 6`, and `totalPending == 6` (incremented per dispatched
`execute`, never decremented). -/
theorem c6_scheduler_three_ticks :
    (schedRun defaultConfig okParser fatalHandler defaultFetchedMessages 2
      { maxLoops := 3, stats := zeroStats, stopped := false }).stopped = false ∧
    (schedRun defaultConfig okParser fatalHandler defaultFetchedMessages 3
      { maxLoops := 3, stats := zeroStats, stopped := false }).stopped = true ∧
    (schedRun defaultConfig okParser fatalHandler defaultFetchedMessages 3
      { maxLoops := 3, stats := zeroStats, stopped := false }).stats =
      { totalPending := 6, totalExecuted := 6, totalErrors := 6 } := by
  decide

/-- C7: for every raw message and every parser and handler behavior
(including throwing ones), `execute` never lets an exception escape: the
explicit exception channel of `executeE` always carries a normal result. -/
theorem c7_execute_never_throws (cfg : Config) (parser : ParserFn)
    (handler : HandlerFn) (stats : Stats) (msg : Val) :
    ∃ r : ExecResult, executeE cfg parser handler stats msg = .ok r := by
  unfold executeE
  cases hp : parser Val.execRef msg with
  | error e =>
    simp only [hp]
    exact ⟨_, rfl⟩
  | ok p =>
    simp only [hp]
    cases ho : (handleTask cfg handler
        { stats with totalPending := stats.totalPending + 1 }
        ((newTask cfg.maxRetries msg).setMessage p)).outcome <;>
      · simp only [ho]
        exact ⟨_, rfl⟩

unseal handleTask in
/-- C8 counterexample: a parser written to the documented unary contract
`parse(rawMessage) → payload` — here the identity parser, which returns
its sole parameter — stores the executor instance as the payload, not the
raw message `'test'`: the first positional argument at the call site is
the executor, so the raw message is not what the parser receives as
`rawMessage`. -/
theorem c8_counterexample :
    (execute defaultConfig (unaryParser (fun v => .ok v)) okHandler zeroStats
      (Val.str "test")).task.message = some Val.execRef ∧
    some Val.execRef ≠ some (Val.str "test") := by
  decide

/-- C8 (amended): `execute` invokes the parser with two positional
arguments — the executor instance first and the raw message second
(`this.parser.parse(this, originalMessage)`); a unary parser therefore
binds the executor, not the raw message. -/
theorem c8_parser_call_arguments (cfg : Config) (parser : ParserFn)
    (handler : HandlerFn) (stats : Stats) (msg : Val) :
    (execute cfg parser handler stats msg).parserArgs =
      some (Val.execRef, msg) := by
  cases hp : parser Val.execRef msg with
  | error e => rw [execute_parseError cfg parser handler stats msg e hp]
  | ok p => rw [execute_parseOk cfg parser handler stats msg p hp]

unseal handleTask in
/-- C9 counterexample: with a handler that fails transiently on the first
attempt and succeeds on the second, the returned task has
`status == 'success'` but `lastError` still holds the transient error —
the success path never clears it. -/
theorem c9_counterexample :
    (execute defaultConfig okParser failOnceHandler zeroStats
      (Val.str "m")).task.status = .success ∧
    (execute defaultConfig okParser failOnceHandler zeroStats
      (Val.str "m")).task.lastError = some (.generic "boom") ∧
    (execute defaultConfig okParser failOnceHandler zeroStats
      (Val.str "m")).task.lastError ≠ none := by
  decide

/-- C9 (amended): for every task returned by `execute` with
`status == 'success'`, `lastError` is `null` exactly when the first
attempt succeeded (`retries == 1`); when earlier attempts failed
transiently, the most recent transient error remains in `lastError` even
after the eventual success. -/
theorem c9_success_lastError_iff_first_attempt (cfg : Config)
    (parser : ParserFn) (handler : HandlerFn) (stats : Stats) (msg : Val)
    (hsucc : (execute cfg parser handler stats msg).task.status = .success) :
    (execute cfg parser handler stats msg).task.lastError = none ↔
      (execute cfg parser handler stats msg).task.retries = 1 := by
  cases hp : parser Val.execRef msg with
  | error e =>
    rw [execute_parseError cfg parser handler stats msg e hp] at hsucc
    simp [newTask, Task.setCompletedAsError] at hsucc
  | ok p =>
    rw [execute_parseOk cfg parser handler stats msg p hp] at hsucc ⊢
    simp only [] at hsucc ⊢
    have h := handleTask_success_lastError cfg handler
      { stats with totalPending := stats.totalPending + 1 }
      (parsedTask cfg msg p) hsucc
    obtain ⟨hr0, -, hle, -⟩ := parsedTask_fields cfg msg p
    rw [hr0, hle] at h
    simpa using h

unseal handleTask in
theorem c9_success_lastError_iff_first_attempt_witness :
    (execute defaultConfig okParser okHandler zeroStats
      (Val.str "m")).task.lastError = none ↔
    (execute defaultConfig okParser okHandler zeroStats
      (Val.str "m")).task.retries = 1 :=
  c9_success_lastError_iff_first_attempt defaultConfig okParser okHandler
    zeroStats (Val.str "m") (by decide)

/-- C10: for every `execute` call whose message parses successfully, the
first handler attempt is not synchronous: the first trace event is the
arming of a timer with delay `min(intervalMs * 2^0, maxIntervalMs)`
(computed with `retries == 0`), every handler attempt occurs strictly
after that event, and with the default configuration that first delay is
1000 ms. -/
theorem c10_first_attempt_on_timer (cfg : Config) (parser : ParserFn)
    (handler : HandlerFn) (stats : Stats) (msg p : Val)
    (hp : parser Val.execRef msg = .ok p) :
    (execute cfg parser handler stats msg).events[0]? =
      some (.sched (min (cfg.intervalMs * 2 ^ 0) cfg.maxIntervalMs)) ∧
    (∀ i n, (execute cfg parser handler stats msg).events[i]? =
      some (.attempt n) → 1 ≤ i) ∧
    (cfg = defaultConfig →
      (execute cfg parser handler stats msg).events[0]? = some (.sched 1000)) := by
  rw [execute_parseOk cfg parser handler stats msg p hp]
  have hcalc : calculateInterval cfg (parsedTask cfg msg p) =
      min (cfg.intervalMs * 2 ^ 0) cfg.maxIntervalMs := by
    obtain ⟨hr0, -, -, -⟩ := parsedTask_fields cfg msg p
    rw [calculateInterval, hr0]
  refine ⟨?_, ?_, ?_⟩
  · simp only [List.getElem?_cons_zero, hcalc]
  · intro i n h
    cases i with
    | zero => simp at h
    | succ i => omega
  · intro hdef
    subst hdef
    simp only [List.getElem?_cons_zero, hcalc]
    decide

theorem c10_first_attempt_on_timer_witness :
    (execute defaultConfig okParser okHandler zeroStats
      (Val.str "m")).events[0]? =
      some (.sched (min (defaultConfig.intervalMs * 2 ^ 0)
        defaultConfig.maxIntervalMs)) ∧
    (∀ i n, (execute defaultConfig okParser okHandler zeroStats
      (Val.str "m")).events[i]? = some (.attempt n) → 1 ≤ i) ∧
    (defaultConfig = defaultConfig →
      (execute defaultConfig okParser okHandler zeroStats
        (Val.str "m")).events[0]? = some (.sched 1000)) :=
  c10_first_attempt_on_timer defaultConfig okParser okHandler zeroStats
    (Val.str "m") Val.obj rfl

end LinceScheduler

